import Mathlib

/-!
# Verification of the multi-tenant scoping layer of a CRM SaaS backend

This file gives a shallow embedding of the tenant-scoping and access-control
layer of the CRM backend (Django / Django REST Framework application) and
proves properties of it.

The embedded code comes from:
* `apps/organizations/services.py` — membership predicates
  (`user_in_organization`, `user_is_org_admin`, `organizations_for_user`,
  `organization_ids_for_user`);
* `core/viewsets.py` — `OrganizationScopedViewSet` (`get_queryset`,
  `_get_request_organization`, `get_serializer_context`, `perform_create`);
* `apps/contacts/serializers.py` — `ContactSerializer.validate_company`;
* `apps/contacts/views.py` — `ContactViewSet.get_queryset`;
* `apps/organizations/views.py` — `OrganizationViewSet.create`,
  `cancel_invitation`, `resend_invitation`, `send_invitation`;
* `apps/organizations/serializers.py` — `InvitationSerializer.validate` /
  `create`;
* `apps/organizations/models.py` — the `Invitation` model (`is_expired`,
  `mark_accepted`, `cancel`) and the `OrganizationMember.role` foreign key
  with `on_delete=SET_NULL`;
* `apps/accounts/views.py` — `AcceptInvitationView.post`.

Database rows are modelled as structures, tables as lists of rows, and the
database as a record of tables.  Primary keys, which Django represents as
UUIDs, are modelled as `Nat`; timestamps as `Nat` (seconds).  Each HTTP
operation becomes a pure function from the database state (plus request
data) to an `Except ApiError` result, possibly paired with an updated
database state.  DRF exceptions (`NotFound`, `PermissionDenied`,
`ValidationError`) become the constructors of `ApiError`; views that return
an error `Response` directly (e.g. `AcceptInvitationView`) are mapped onto
the same constructors, following the error taxonomy of the exception
handler in `core/exceptions.py`.
-/

/-! ## Data model (`apps/organizations/models.py`, `apps/contacts/models.py`) -/

/-- A row of the `Organization` table.  Only the fields relevant to the
tenant-scoping layer are kept: the primary key and the owning user
(`owner` foreign key). -/
structure Organization where
  id : Nat
  ownerId : Nat
  name : String
  deriving Repr, DecidableEq

/-- A row of the `Role` table (`OrganizationScopedModel`): organization
scoped named permission set. -/
structure Role where
  id : Nat
  organization : Nat
  name : String
  isSystemRole : Bool
  deriving Repr, DecidableEq

/-- A row of the `OrganizationMember` table.  `role` is the nullable
foreign key declared with `on_delete=models.SET_NULL`. -/
structure OrganizationMember where
  organization : Nat
  user : Nat
  role : Option Nat
  isActive : Bool
  invitationAccepted : Bool
  deriving Repr, DecidableEq

/-- The four values of `Invitation.Status` (`models.TextChoices`). -/
inductive InvitationStatus where
  | pending
  | accepted
  | expired
  | cancelled
  deriving Repr, DecidableEq

/-- A row of the `Invitation` table.  `role` is nullable
(`on_delete=SET_NULL`); `token` is the unique invitation token
(a `secrets.token_urlsafe` string in the code, modelled as `Nat`);
`expiresAt` and `acceptedAt` are timestamps in seconds. -/
structure Invitation where
  id : Nat
  organization : Nat
  email : String
  role : Option Nat
  status : InvitationStatus
  token : Nat
  expiresAt : Nat
  acceptedAt : Option Nat
  deriving Repr, DecidableEq

/-- A row of the `Company` table (a tenant-owned resource): primary key
plus the mandatory `organization` foreign key. -/
structure Company where
  id : Nat
  organization : Nat
  deriving Repr, DecidableEq

/-- A row of the `Contact` table: primary key, mandatory `organization`
foreign key, nullable `company` foreign key, nullable `created_by`. -/
structure Contact where
  id : Nat
  organization : Nat
  company : Option Nat
  createdBy : Option Nat
  deriving Repr, DecidableEq

/-- A row of the `User` table (`accounts.User`), with the two flags the
scoping layer reads: `is_authenticated` (request-level, true for any
logged-in user) and `is_superuser`. -/
structure User where
  id : Nat
  email : String
  isAuthenticated : Bool
  isSuperuser : Bool
  deriving Repr, DecidableEq

/-- The database: one list of rows per table. -/
structure Db where
  organizations : List Organization
  members : List OrganizationMember
  roles : List Role
  invitations : List Invitation
  companies : List Company
  contacts : List Contact
  users : List User
  deriving Repr, DecidableEq

/-! ## Membership services (`apps/organizations/services.py`) -/

/-- `services.user_in_organization(user, organization)`: true iff the user
is the organization's owner or has an active membership row in it. -/
def user_in_organization (db : Db) (userId : Nat) (org : Organization) : Bool :=
  org.ownerId == userId ||
    db.members.any fun m =>
      m.organization == org.id && m.user == userId && m.isActive

/-- `services.user_is_org_admin(user, organization)`: true iff the user is
the owner or holds an active membership whose role name is in
`["Admin"]`. -/
def user_is_org_admin (db : Db) (userId : Nat) (org : Organization) : Bool :=
  org.ownerId == userId ||
    db.members.any fun m =>
      m.organization == org.id && m.user == userId && m.isActive &&
        (match m.role with
         | some roleId => db.roles.any fun r => r.id == roleId && r.name == "Admin"
         | none => false)

/-- `services.organizations_for_user(user)`: the empty queryset for an
unauthenticated user, otherwise organizations where the user is the owner
or has an active membership (`Q(owner=user) | Q(members__user=user,
members__is_active=True)`). -/
def organizations_for_user (db : Db) (user : User) : List Organization :=
  if !user.isAuthenticated then []
  else
    db.organizations.filter fun o =>
      o.ownerId == user.id ||
        db.members.any fun m =>
          m.organization == o.id && m.user == user.id && m.isActive

/-- `services.organization_ids_for_user(user)`: the ids of
`organizations_for_user`. -/
def organization_ids_for_user (db : Db) (user : User) : List Nat :=
  (organizations_for_user db user).map (·.id)

/-! ## Error model

DRF exceptions raised by the embedded code, plus error `Response`s built
directly by views.  `validationError` carries the field key under which the
message is reported (`none` for a non-field error detail). -/

/-- The error outcomes of the embedded endpoints. -/
inductive ApiError where
  | notFound (msg : String)
  | permissionDenied (msg : String)
  | validationError (field : Option String) (msg : String)
  deriving Repr, DecidableEq

/-! ## Tenant resolver (`core/viewsets.py`, `OrganizationScopedViewSet`) -/

/-- The three places an `OrganizationScopedViewSet` request can carry an
organization reference: the request body field `organization`, the query
parameter `organization`, and the URL kwarg `organization_id`. -/
structure ScopedRequest where
  bodyOrg : Option Nat
  queryOrg : Option Nat
  kwargsOrg : Option Nat
  deriving Repr, DecidableEq

/-- The precedence chain of `_get_request_organization`:
`org_id = data.get(param) or query_params.get(param) or kwargs.get("organization_id")`. -/
def requestOrgRef (req : ScopedRequest) : Option Nat :=
  req.bodyOrg <|> req.queryOrg <|> req.kwargsOrg

/-- `OrganizationScopedViewSet._get_request_organization`: resolve the
request's organization reference.  No reference resolves to `none`;
a reference to a nonexistent organization raises
`ValidationError({"organization": "Organization not found."})`; a
reference to an organization the caller is not in raises
`PermissionDenied`.  (The per-request memoization caches a pure result,
so it is invisible to the embedding.) -/
def getRequestOrganization (db : Db) (user : User) (req : ScopedRequest) :
    Except ApiError (Option Organization) :=
  match requestOrgRef req with
  | none => .ok none
  | some orgId =>
    match db.organizations.find? (fun o => o.id == orgId) with
    | none => .error (.validationError (some "organization") "Organization not found.")
    | some org =>
      if user_in_organization db user.id org then .ok (some org)
      else .error (.permissionDenied "You do not have access to this organization.")

/-! ## Scoped queryset and the generic CRUD operations

`OrganizationScopedViewSet.get_queryset` filters the declared queryset to
`organization_id__in=organization_ids_for_user(user)` and, when the
`organization` query parameter is present, additionally to that single
organization.  The configured filter backends
(`AdvancedQueryFilterBackend`, `DjangoFilterBackend`, `SearchFilter`) only
ever call `.filter(...)` on the queryset, so their combined effect is
modelled as an arbitrary predicate `extra` applied on top. -/

section ScopedOps

variable {α : Type} (orgOf : α → Nat) (idOf : α → Nat)

/-- `OrganizationScopedViewSet.get_queryset`. -/
def scopedQueryset (resources : List α) (db : Db) (user : User)
    (queryOrg : Option Nat) : List α :=
  let orgIds := organization_ids_for_user db user
  let qs := resources.filter fun r => orgIds.contains (orgOf r)
  match queryOrg with
  | some orgId => qs.filter fun r => orgOf r == orgId
  | none => qs

/-- DRF `GenericAPIView.get_object`: look the pk up in
`filter_queryset(get_queryset())`; a miss raises `NotFound` (HTTP 404). -/
def getObject (resources : List α) (db : Db) (user : User)
    (req : ScopedRequest) (extra : α → Bool) (pk : Nat) : Except ApiError α :=
  match ((scopedQueryset orgOf resources db user req.queryOrg).filter extra).find?
      (fun r => idOf r == pk) with
  | none => .error (.notFound "Not found.")
  | some r => .ok r

/-- DRF `ListModelMixin.list` on an `OrganizationScopedViewSet`: evaluate
the filtered queryset, then build the serializer, whose
`get_serializer_context` invokes the tenant resolver (raising its errors). -/
def listOp (resources : List α) (db : Db) (user : User)
    (req : ScopedRequest) (extra : α → Bool) : Except ApiError (List α) :=
  let qs := (scopedQueryset orgOf resources db user req.queryOrg).filter extra
  match getRequestOrganization db user req with
  | .error e => .error e
  | .ok _ => .ok qs

/-- DRF `RetrieveModelMixin.retrieve`: `get_object` (404 on a miss), then
serialization, whose context construction invokes the tenant resolver. -/
def retrieveOp (resources : List α) (db : Db) (user : User)
    (req : ScopedRequest) (extra : α → Bool) (pk : Nat) : Except ApiError α :=
  match getObject orgOf idOf resources db user req extra pk with
  | .error e => .error e
  | .ok r =>
    match getRequestOrganization db user req with
    | .error e => .error e
    | .ok _ => .ok r

/-- DRF `UpdateModelMixin.update`: `get_object`, then the serializer
(context resolver, validation and save — abstracted here as `modify`,
since each resource supplies its own serializer). -/
def updateOp (resources : List α) (db : Db) (user : User)
    (req : ScopedRequest) (extra : α → Bool) (pk : Nat)
    (modify : α → Except ApiError α) : Except ApiError α :=
  match getObject orgOf idOf resources db user req extra pk with
  | .error e => .error e
  | .ok r =>
    match getRequestOrganization db user req with
    | .error e => .error e
    | .ok _ => modify r

/-- DRF `DestroyModelMixin.destroy`: `get_object`, then delete the row by
primary key.  (No serializer is built, so the resolver never runs.) -/
def destroyOp (resources : List α) (db : Db) (user : User)
    (req : ScopedRequest) (extra : α → Bool) (pk : Nat) :
    Except ApiError (List α) :=
  match getObject orgOf idOf resources db user req extra pk with
  | .error e => .error e
  | .ok r => .ok (resources.filter fun x => !(idOf x == idOf r))

end ScopedOps

/-! ## Contact serializer and the contact CRUD flow
(`apps/contacts/serializers.py`, `apps/contacts/views.py`) -/

/-- `ContactSerializer._get_organization`: the serializer-context
organization if present, else the instance's organization, else `None`. -/
def serializer_get_organization (ctxOrg : Option Organization)
    (instanceOrg : Option Nat) : Option Nat :=
  match ctxOrg with
  | some org => some org.id
  | none => instanceOrg

/-- `ContactSerializer.validate_company`: a null company passes; otherwise,
when an organization is determinable and the company's `organization_id`
differs from it, raise `ValidationError` on the field `company`. -/
def validate_company (ctxOrg : Option Organization) (instanceOrg : Option Nat)
    (value : Option Company) : Except ApiError (Option Company) :=
  match value with
  | none => .ok none
  | some c =>
    match serializer_get_organization ctxOrg instanceOrg with
    | some orgId =>
      if c.organization != orgId then
        .error (.validationError (some "company") "Company must belong to the same organization.")
      else .ok (some c)
    | none => .ok (some c)

/-- The client-controlled parts of a contact create payload that this layer
inspects: a possible `organization` value in the body (ignored by
`perform_create`, which stamps the resolved organization via
`serializer.save(organization=...)` — the field is also declared
`read_only`), and the `company` reference (already resolved to a `Company`
row by `PrimaryKeyRelatedField(queryset=Company.objects.all())`). -/
structure ContactPayload where
  organization : Option Nat
  company : Option Company
  deriving Repr, DecidableEq

/-- The contact create flow (`CreateModelMixin.create` on
`ContactViewSet`): build the serializer (its context runs the tenant
resolver), run `validate_company`, then
`OrganizationScopedViewSet.perform_create`: require a resolved
organization (`ValidationError({"organization": "This field is
required."})` otherwise) and save with `organization=` the resolved
organization and `created_by=` the caller when authenticated
(`Contact` has a `created_by` field). -/
def contactCreateOp (db : Db) (user : User) (req : ScopedRequest)
    (payload : ContactPayload) (newId : Nat) : Except ApiError Contact :=
  match getRequestOrganization db user req with
  | .error e => .error e
  | .ok ctxOrg =>
    match validate_company ctxOrg none payload.company with
    | .error e => .error e
    | .ok companyVal =>
      match ctxOrg with
      | none => .error (.validationError (some "organization") "This field is required.")
      | some org =>
        .ok { id := newId
              organization := org.id
              company := companyVal.map (·.id)
              createdBy := if user.isAuthenticated then some user.id else none }

/-- `ContactViewSet.get_queryset`: the base scoped queryset, further
narrowed to the resolved request organization when one resolves (the
resolver's errors propagate). -/
def contactQueryset (db : Db) (user : User) (req : ScopedRequest) :
    Except ApiError (List Contact) :=
  let base := scopedQueryset (fun c : Contact => c.organization) db.contacts db user req.queryOrg
  match getRequestOrganization db user req with
  | .error e => .error e
  | .ok (some org) => .ok (base.filter fun c => c.organization == org.id)
  | .ok none => .ok base

/-- The queryset `get_object` searches during a contact update: the
evaluated `ContactViewSet.get_queryset` given the (memoized) resolver
result `ctxOrg`. -/
def contactUpdateCandidates (db : Db) (user : User) (req : ScopedRequest)
    (ctxOrg : Option Organization) : List Contact :=
  let base : List Contact :=
    scopedQueryset (fun c : Contact => c.organization) db.contacts db user req.queryOrg
  match ctxOrg with
  | some org => base.filter fun c => c.organization == org.id
  | none => base

/-- The contact partial-update flow (`UpdateModelMixin` on
`ContactViewSet`): `get_object` over `ContactViewSet.get_queryset` (404 on
a miss), then the serializer with the memoized resolver result in its
context.  `newCompany = none` models a payload without the `company` key
(field validator not run, field unchanged); `newCompany = some v` models
`company` present with value `v`.  `organization` is `read_only`, so the
row's organization is never changed. -/
def contactUpdateOp (db : Db) (user : User) (req : ScopedRequest) (pk : Nat)
    (extra : Contact → Bool) (newCompany : Option (Option Company)) :
    Except ApiError Contact :=
  match getRequestOrganization db user req with
  | .error e => .error e
  | .ok ctxOrg =>
    match ((contactUpdateCandidates db user req ctxOrg).filter extra).find?
        (fun c => c.id == pk) with
    | none => .error (.notFound "Not found.")
    | some c =>
      match newCompany with
      | none => .ok c
      | some v =>
        match validate_company ctxOrg (some c.organization) v with
        | .error e => .error e
        | .ok v' => .ok { c with company := v'.map fun comp => comp.id }

/-! ## Organization viewset (`apps/organizations/views.py`) -/

/-- `OrganizationViewSet.get_queryset`: organizations where the caller is
the owner or an active member. -/
def orgViewsetQueryset (db : Db) (user : User) : List Organization :=
  db.organizations.filter fun o =>
    o.ownerId == user.id ||
      db.members.any fun m =>
        m.organization == o.id && m.user == user.id && m.isActive

/-- `get_object` on `OrganizationViewSet`: pk lookup in its queryset,
`NotFound` on a miss. -/
def orgGetObject (db : Db) (user : User) (pk : Nat) :
    Except ApiError Organization :=
  match (orgViewsetQueryset db user).find? (fun o => o.id == pk) with
  | none => .error (.notFound "Not found.")
  | some org => .ok org

/-- `OrganizationViewSet._ensure_admin`: `PermissionDenied` unless
`user_is_org_admin`. -/
def ensureAdmin (db : Db) (user : User) (org : Organization) :
    Except ApiError Unit :=
  if !user_is_org_admin db user.id org then
    .error (.permissionDenied "Only organization admins can perform this action.")
  else .ok ()

/-- `OrganizationViewSet.create`: any authenticated caller who is not a
superuser gets `PermissionDenied` before the serializer runs; a superuser
goes through `OrganizationCreateSerializer.create`, which calls
`services.create_organization_with_owner` (new organization owned by the
caller, default roles seeded, the designated admin user added as an active
member with the Admin role). -/
def organization_create (db : Db) (user : User) (name : String)
    (adminUserId : Nat) (newOrgId : Nat) (newAdminRoleId : Nat)
    (newStaffRoleId : Nat) : Except ApiError (Organization × Db) :=
  if !user.isSuperuser then
    .error (.permissionDenied "Only superadmins can create organizations.")
  else
    let org : Organization := { id := newOrgId, ownerId := user.id, name := name }
    let adminRole : Role :=
      { id := newAdminRoleId, organization := newOrgId, name := "Admin", isSystemRole := true }
    let staffRole : Role :=
      { id := newStaffRoleId, organization := newOrgId, name := "Staff", isSystemRole := true }
    let adminMember : OrganizationMember :=
      { organization := newOrgId, user := adminUserId, role := some newAdminRoleId
        isActive := true, invitationAccepted := true }
    .ok (org, { db with
      organizations := db.organizations ++ [org]
      roles := db.roles ++ [adminRole, staffRole]
      members := db.members ++ [adminMember] })

/-! ## Invitation model methods (`apps/organizations/models.py`) -/

/-- `Invitation.is_expired`: `timezone.now() > self.expires_at`. -/
def invitation_is_expired (now : Nat) (inv : Invitation) : Bool :=
  now > inv.expiresAt

/-- `Invitation.mark_accepted`: set status `ACCEPTED` and stamp
`accepted_at`. -/
def invitation_mark_accepted (now : Nat) (inv : Invitation) : Invitation :=
  { inv with status := .accepted, acceptedAt := some now }

/-- `Invitation.cancel`: set status `CANCELLED`. -/
def invitation_cancel (inv : Invitation) : Invitation :=
  { inv with status := .cancelled }

/-- `invitation.save(...)` for a row with primary key `invId`: replace the
row with that pk (pks are unique in a well-formed database). -/
def saveInvitation (db : Db) (invId : Nat) (g : Invitation → Invitation) : Db :=
  { db with invitations := db.invitations.map fun i => if i.id == invId then g i else i }

/-! ## Invitation endpoints (`apps/organizations/views.py`,
`apps/organizations/serializers.py`, `apps/accounts/views.py`) -/

/-- `OrganizationViewSet.cancel_invitation`: `get_object` (the
organization), `_ensure_admin`, fetch the invitation by id within the
organization (`NotFound` on a miss), reject any non-`PENDING` status with
`ValidationError`, otherwise `invitation.cancel()`. -/
def cancel_invitation (db : Db) (user : User) (orgPk : Nat) (invitationId : Nat) :
    Except ApiError Db :=
  match orgGetObject db user orgPk with
  | .error e => .error e
  | .ok org =>
    match ensureAdmin db user org with
    | .error e => .error e
    | .ok _ =>
      match db.invitations.find? (fun i => i.id == invitationId && i.organization == org.id) with
      | none => .error (.notFound "Invitation not found.")
      | some inv =>
        if inv.status != InvitationStatus.pending then
          .error (.validationError none "Only pending invitations can be cancelled.")
        else .ok (saveInvitation db inv.id invitation_cancel)

/-- `OrganizationViewSet.resend_invitation`: same shape as cancellation,
but a successful resend changes no stored state (the email send is a
`TODO` in the code). -/
def resend_invitation (db : Db) (user : User) (orgPk : Nat) (invitationId : Nat) :
    Except ApiError Db :=
  match orgGetObject db user orgPk with
  | .error e => .error e
  | .ok org =>
    match ensureAdmin db user org with
    | .error e => .error e
    | .ok _ =>
      match db.invitations.find? (fun i => i.id == invitationId && i.organization == org.id) with
      | none => .error (.notFound "Invitation not found.")
      | some inv =>
        if inv.status != InvitationStatus.pending then
          .error (.validationError none "Only pending invitations can be resent.")
        else .ok db

/-- The token generation of `InvitationSerializer.create`:
`secrets.token_urlsafe(32)` resampled in a loop until the token is not
already used by any invitation.  Modelled as a deterministic fresh value;
the property the code guarantees — the result differs from every stored
token — is proved below (`freshInvitationToken_not_used`). -/
def freshInvitationToken (db : Db) : Nat :=
  (db.invitations.map (·.token)).foldr Nat.max 0 + 1

/-- Seven days, the invitation lifetime (`timedelta(days=7)`), in seconds. -/
def sevenDays : Nat := 7 * 86400

/-- `OrganizationViewSet.send_invitation` together with
`InvitationSerializer.validate` / `create`: `get_object`, `_ensure_admin`,
then validation — if a user with the invited email is already a member of
the organization, or a `PENDING` invitation for that email already exists
in the organization, raise `ValidationError` — then creation: a fresh
unique token, `expires_at = now + 7 days`, and the model-default status
`PENDING` (the `status` field is `read_only`). -/
def send_invitation (db : Db) (user : User) (orgPk : Nat) (email : String)
    (roleId : Option Nat) (now : Nat) (newId : Nat) :
    Except ApiError (Invitation × Db) :=
  match orgGetObject db user orgPk with
  | .error e => .error e
  | .ok org =>
    match ensureAdmin db user org with
    | .error e => .error e
    | .ok _ =>
      if db.users.any (fun u => u.email == email &&
          db.members.any fun m => m.organization == org.id && m.user == u.id) then
        .error (.validationError none "User is already a member of this organization.")
      else if db.invitations.any (fun i =>
          i.organization == org.id && i.email == email &&
            i.status == InvitationStatus.pending) then
        .error (.validationError none "A pending invitation already exists for this email.")
      else
        let inv : Invitation :=
          { id := newId
            organization := org.id
            email := email
            role := roleId
            status := .pending
            token := freshInvitationToken db
            expiresAt := now + sevenDays
            acceptedAt := none }
        .ok (inv, { db with invitations := db.invitations ++ [inv] })

/-- The request body of the public accept endpoint
(`InvitationAcceptSerializer`): either an existing user id, or
registration fields for a new user. -/
structure AcceptPayload where
  userId : Option Nat
  firstName : String
  lastName : Option String
  deriving Repr, DecidableEq

/-- The observable outcome of `AcceptInvitationView.post`: an error
response, or a success response for the given user. -/
inductive AcceptResult where
  | failure (e : ApiError)
  | success (userId : Nat)
  deriving Repr, DecidableEq

/-- `AcceptInvitationView.post`, returning the response outcome together
with the resulting database state (the expiry branch both responds with an
error and flips the invitation to `EXPIRED`).

Steps, in source order: look the invitation up by token (404 on a miss);
reject a non-`PENDING` status ("Invitation is not pending.", HTTP 400);
lazily expire a `PENDING` invitation past its `expires_at` ("Invitation
has expired.", HTTP 400, status flipped to `EXPIRED`); resolve or create
the accepting user; `get_or_create` the membership (reactivating and
re-stamping an existing row); `invitation.mark_accepted()`. -/
def accept_invitation (db : Db) (now : Nat) (token : Nat)
    (payload : AcceptPayload) (newUserId : Nat) : AcceptResult × Db :=
  match db.invitations.find? (fun i => i.token == token) with
  | none => (.failure (.notFound "Invalid invitation token."), db)
  | some inv =>
    if inv.status != InvitationStatus.pending then
      (.failure (.validationError none "Invitation is not pending."), db)
    else if invitation_is_expired now inv then
      (.failure (.validationError none "Invitation has expired."),
        saveInvitation db inv.id fun i => { i with status := .expired })
    else
      let userResult : Except ApiError (Nat × Db) :=
        match payload.userId with
        | some uid =>
          match db.users.find? (fun u => u.id == uid) with
          | none => .error (.notFound "User not found.")
          | some u =>
            if u.email != inv.email then
              .error (.validationError none "User email does not match invitation email.")
            else .ok (u.id, db)
        | none =>
          .ok (newUserId, { db with users := db.users ++
            [{ id := newUserId, email := inv.email, isAuthenticated := true,
               isSuperuser := false }] })
      match userResult with
      | .error e => (.failure e, db)
      | .ok (uid, db1) =>
        let db2 : Db :=
          if db1.members.any (fun m => m.organization == inv.organization && m.user == uid) then
            { db1 with members := db1.members.map fun m =>
                if m.organization == inv.organization && m.user == uid then
                  { m with role := inv.role, invitationAccepted := true, isActive := true }
                else m }
          else
            { db1 with members := db1.members ++
              [{ organization := inv.organization, user := uid, role := inv.role,
                 isActive := true, invitationAccepted := true }] }
        (.success uid, saveInvitation db2 inv.id (invitation_mark_accepted now))

/-! ## Role deletion (`apps/organizations/models.py`)

Deleting a `Role` row triggers the ORM-level cascade declared on the
foreign keys that reference it: `OrganizationMember.role` and
`Invitation.role` are both declared with `on_delete=models.SET_NULL`, so
the referencing rows survive with a nulled `role` and no other field is
touched. -/

/-- ORM deletion of the `Role` row with primary key `roleId`. -/
def delete_role (db : Db) (roleId : Nat) : Db :=
  { db with
    roles := db.roles.filter fun r => !(r.id == roleId)
    members := db.members.map fun m =>
      if m.role == some roleId then { m with role := none } else m
    invitations := db.invitations.map fun i =>
      if i.role == some roleId then { i with role := none } else i }

/-! ## Sequences of invitation operations

For the invitation-status monotonicity property, the three
invitation-mutating endpoints are packaged as operations on the database
state (an endpoint that returns an error leaves the state it produced,
which for every error except lazy expiry is the unchanged input state). -/

/-- One invocation of an invitation endpoint, with its request data. -/
inductive InvOp where
  | cancel (user : User) (orgPk : Nat) (invitationId : Nat)
  | resend (user : User) (orgPk : Nat) (invitationId : Nat)
  | accept (now : Nat) (token : Nat) (payload : AcceptPayload) (newUserId : Nat)

/-- The database state after one invitation endpoint invocation. -/
def applyInvOp (db : Db) : InvOp → Db
  | .cancel user orgPk invitationId =>
    match cancel_invitation db user orgPk invitationId with
    | .ok db' => db'
    | .error _ => db
  | .resend user orgPk invitationId =>
    match resend_invitation db user orgPk invitationId with
    | .ok db' => db'
    | .error _ => db
  | .accept now token payload newUserId =>
    (accept_invitation db now token payload newUserId).2

/-- The database state after a sequence of invitation endpoint
invocations. -/
def runInvOps (db : Db) (ops : List InvOp) : Db :=
  ops.foldl applyInvOp db

/-! ## Concrete sample data (used to instantiate theorems) -/

/-- A user who owns two organizations. -/
def userA : User :=
  { id := 1, email := "a@crm.test", isAuthenticated := true, isSuperuser := false }

/-- An authenticated user with no organizations. -/
def userB : User :=
  { id := 2, email := "b@crm.test", isAuthenticated := true, isSuperuser := false }

/-- Organization X, owned by `userA`. -/
def orgX : Organization := { id := 10, ownerId := 1, name := "X" }

/-- Organization Y, also owned by `userA`. -/
def orgY : Organization := { id := 20, ownerId := 1, name := "Y" }

/-- A company belonging to organization X. -/
def companyKX : Company := { id := 200, organization := 10 }

/-- A company belonging to organization Y. -/
def companyKY : Company := { id := 201, organization := 20 }

/-- A contact belonging to organization X. -/
def contactC : Contact :=
  { id := 100, organization := 10, company := none, createdBy := some 1 }

/-- An invitation of organization X that has already expired (stored
status `EXPIRED`). -/
def invExpired : Invitation :=
  { id := 300, organization := 10, email := "c@crm.test", role := none
    status := .expired, token := 77, expiresAt := 1000, acceptedAt := none }

/-- A pending invitation of organization X. -/
def invPending : Invitation :=
  { id := 301, organization := 10, email := "d@crm.test", role := none
    status := .pending, token := 78, expiresAt := 999999, acceptedAt := none }

/-- An active member of organization X holding role 400. -/
def memberM1 : OrganizationMember :=
  { organization := 10, user := 3, role := some 400
    isActive := true, invitationAccepted := true }

/-- A second active member of organization X holding role 400. -/
def memberM2 : OrganizationMember :=
  { organization := 10, user := 4, role := some 400
    isActive := true, invitationAccepted := true }

/-- The staff role 400 of organization X. -/
def roleStaffX : Role :=
  { id := 400, organization := 10, name := "Staff", isSystemRole := false }

/-- The sample database used by the witnesses and counterexamples. -/
def sampleDb : Db :=
  { organizations := [orgX, orgY]
    members := [memberM1, memberM2]
    roles := [roleStaffX]
    invitations := [invExpired, invPending]
    companies := [companyKX, companyKY]
    contacts := [contactC]
    users := [userA, userB] }

/-! ## General lemmas -/

/-- `find?` returns the distinguished element when it satisfies the
predicate and is the only element of the list to do so. -/
theorem find_eq_of_unique {α : Type} (p : α → Bool) (l : List α) (a : α)
    (hmem : a ∈ l) (hp : p a = true)
    (hothers : ∀ b ∈ l, p b = true → b = a) :
    l.find? p = some a := by
  induction l with
  | nil => cases hmem
  | cons x xs ih =>
    by_cases hpx : p x = true
    · have hxa : x = a := hothers x (List.mem_cons_self x xs) hpx
      subst hxa
      simp [List.find?_cons_of_pos _ hpx]
    · have hpx' : p x = false := by
        cases h : p x
        · rfl
        · exact absurd h hpx
      rw [List.find?_cons_of_neg _ (by simp [hpx'])]
      apply ih
      · rcases List.mem_cons.mp hmem with hxa | hmem2
        · exact absurd (hxa ▸ hp) hpx
        · exact hmem2
      · intro b hb hpb
        exact hothers b (List.mem_cons_of_mem x hb) hpb

/-- Every element of a list of naturals is bounded by the `foldr`-maximum. -/
theorem le_foldr_max (l : List Nat) : ∀ x ∈ l, x ≤ l.foldr Nat.max 0 := by
  induction l with
  | nil => intro x hx; cases hx
  | cons a t ih =>
    intro x hx
    rcases List.mem_cons.mp hx with rfl | hxt
    · exact Nat.le_max_left _ _
    · exact Nat.le_trans (ih x hxt) (Nat.le_max_right _ _)

/-- The generated invitation token differs from every stored token. -/
theorem freshInvitationToken_not_used (db : Db) :
    ∀ j ∈ db.invitations, j.token ≠ freshInvitationToken db := by
  intro j hj hEq
  have hle : j.token ≤ (db.invitations.map (·.token)).foldr Nat.max 0 :=
    le_foldr_max _ _ (List.mem_map_of_mem _ hj)
  rw [hEq] at hle
  unfold freshInvitationToken at hle
  omega

/-! ## Claim C10 — only superusers create organizations -/

/-- C10: every call to the organization create endpoint by an
authenticated caller who is not a superuser fails with `PermissionDenied`
and creates no organization (the error is raised before the serializer
runs, so no state is produced). -/
theorem claim10_only_superuser_creates_org (db : Db) (user : User)
    (name : String) (adminUserId newOrgId newAdminRoleId newStaffRoleId : Nat)
    (_hauth : user.isAuthenticated = true) (hsup : user.isSuperuser = false) :
    organization_create db user name adminUserId newOrgId newAdminRoleId newStaffRoleId =
      .error (.permissionDenied "Only superadmins can create organizations.") := by
  unfold organization_create
  rw [hsup]
  rfl

/-- Witness for C10: the non-superuser `userB` cannot create an
organization. -/
theorem claim10_witness :
    userB.isAuthenticated = true ∧ userB.isSuperuser = false ∧
    organization_create sampleDb userB "Acme" 1 50 51 52 =
      .error (.permissionDenied "Only superadmins can create organizations.") :=
  ⟨rfl, rfl, claim10_only_superuser_creates_org sampleDb userB "Acme" 1 50 51 52 rfl rfl⟩

/-! ## Claim C3 — tenant resolver error taxonomy (corrected)

The claim says an unknown organization reference fails with `NotFound`.
The code (`core/viewsets.py`, `_get_request_organization`) raises
`ValidationError({"organization": "Organization not found."})` instead.
The `PermissionDenied` half of the claim is as stated. -/

/-- Counterexample for C3: resolving the nonexistent organization `99`
yields a `ValidationError` on the `organization` field, not a `NotFound`
error as the claim states. -/
theorem claim3_counterexample :
    getRequestOrganization sampleDb userB
        { bodyOrg := none, queryOrg := some 99, kwargsOrg := none } =
      .error (.validationError (some "organization") "Organization not found.") ∧
    ∀ msg : String, getRequestOrganization sampleDb userB
        { bodyOrg := none, queryOrg := some 99, kwargsOrg := none } ≠
      .error (.notFound msg) := by
  refine ⟨rfl, ?_⟩
  intro msg h
  rw [show getRequestOrganization sampleDb userB
        { bodyOrg := none, queryOrg := some 99, kwargsOrg := none } =
      .error (.validationError (some "organization") "Organization not found.") from rfl] at h
  simp at h

/-- C3 as amended: a reference matching no organization makes the resolver
fail with `ValidationError({"organization": "Organization not found."})`
(not `NotFound`), and a reference to an organization of which the caller
is neither owner nor active member makes it fail with
`PermissionDenied`. -/
theorem claim3_resolver_errors (db : Db) (user : User) (req : ScopedRequest)
    (orgId : Nat) (href : requestOrgRef req = some orgId) :
    (db.organizations.find? (fun o => o.id == orgId) = none →
      getRequestOrganization db user req =
        .error (.validationError (some "organization") "Organization not found.")) ∧
    (∀ org, db.organizations.find? (fun o => o.id == orgId) = some org →
      user_in_organization db user.id org = false →
      getRequestOrganization db user req =
        .error (.permissionDenied "You do not have access to this organization.")) := by
  constructor
  · intro hnone
    simp [getRequestOrganization, href, hnone]
  · intro org hsome hnotin
    simp [getRequestOrganization, href, hsome, hnotin]

/-- Witness for C3 (amended): concrete instances of both error branches. -/
theorem claim3_witness :
    requestOrgRef { bodyOrg := none, queryOrg := some 99, kwargsOrg := none } = some 99 ∧
    sampleDb.organizations.find? (fun o => o.id == 99) = none ∧
    requestOrgRef { bodyOrg := none, queryOrg := some 10, kwargsOrg := none } = some 10 ∧
    sampleDb.organizations.find? (fun o => o.id == 10) = some orgX ∧
    user_in_organization sampleDb userB.id orgX = false ∧
    getRequestOrganization sampleDb userB
        { bodyOrg := none, queryOrg := some 99, kwargsOrg := none } =
      .error (.validationError (some "organization") "Organization not found.") ∧
    getRequestOrganization sampleDb userB
        { bodyOrg := none, queryOrg := some 10, kwargsOrg := none } =
      .error (.permissionDenied "You do not have access to this organization.") := by
  refine ⟨rfl, rfl, rfl, by decide, by decide, ?_, ?_⟩
  · exact (claim3_resolver_errors sampleDb userB
      { bodyOrg := none, queryOrg := some 99, kwargsOrg := none } 99 rfl).1 rfl
  · exact (claim3_resolver_errors sampleDb userB
      { bodyOrg := none, queryOrg := some 10, kwargsOrg := none } 10 rfl).2 orgX
      (by decide) (by decide)

/-! ## Claim C9 — role deletion nulls member role references -/

/-- C9: deleting a role removes the role row; every membership that held
the role has its role reference set to null, and every other membership
field — organization, user, `is_active`, `invitation_accepted` — is
unchanged (memberships that did not hold the role are entirely
unchanged). -/
theorem claim9_role_delete_set_null (db : Db) (roleId : Nat) :
    (∀ r ∈ (delete_role db roleId).roles, r.id ≠ roleId) ∧
    (∀ r ∈ db.roles, r.id ≠ roleId → r ∈ (delete_role db roleId).roles) ∧
    (delete_role db roleId).members.length = db.members.length ∧
    (∀ i : Nat, ∀ h : i < db.members.length,
      ∀ h' : i < (delete_role db roleId).members.length,
      ((delete_role db roleId).members.get ⟨i, h'⟩).organization =
        (db.members.get ⟨i, h⟩).organization ∧
      ((delete_role db roleId).members.get ⟨i, h'⟩).user =
        (db.members.get ⟨i, h⟩).user ∧
      ((delete_role db roleId).members.get ⟨i, h'⟩).isActive =
        (db.members.get ⟨i, h⟩).isActive ∧
      ((delete_role db roleId).members.get ⟨i, h'⟩).invitationAccepted =
        (db.members.get ⟨i, h⟩).invitationAccepted ∧
      ((db.members.get ⟨i, h⟩).role = some roleId →
        ((delete_role db roleId).members.get ⟨i, h'⟩).role = none) ∧
      ((db.members.get ⟨i, h⟩).role ≠ some roleId →
        ((delete_role db roleId).members.get ⟨i, h'⟩).role =
          (db.members.get ⟨i, h⟩).role)) := by
  refine ⟨?_, ?_, ?_, ?_⟩
  · intro r hr
    unfold delete_role at hr
    simp only [List.mem_filter, Bool.not_eq_true'] at hr
    intro hEq
    rcases hr with ⟨_, hne⟩
    rw [hEq] at hne
    simp at hne
  · intro r hr hne
    unfold delete_role
    simp only [List.mem_filter]
    exact ⟨hr, by simp [hne]⟩
  · unfold delete_role
    simp
  · intro i h h'
    simp only [List.get_eq_getElem, delete_role] at h' ⊢
    simp only [List.getElem_map]
    by_cases hrole : db.members[i].role = some roleId
    · simp [hrole]
    · simp [hrole]

/-- Witness for C9: deleting role 400 of the sample database, whose two
active members both hold it, at member index 0. -/
theorem claim9_witness :
    (∀ r ∈ (delete_role sampleDb 400).roles, r.id ≠ 400) ∧
    ((delete_role sampleDb 400).members.get ⟨0, by decide⟩).isActive =
      (sampleDb.members.get ⟨0, by decide⟩).isActive ∧
    ((sampleDb.members.get ⟨0, by decide⟩).role = some 400 →
      ((delete_role sampleDb 400).members.get ⟨0, by decide⟩).role = none) := by
  have h := claim9_role_delete_set_null sampleDb 400
  have h4 := h.2.2.2 0 (by decide) (by decide)
  exact ⟨h.1, h4.2.2.1, h4.2.2.2.2.1⟩

/-! ## Claim C8 — accepting an already-expired invitation is idempotent -/

/-- C8: for an invitation whose stored status is `EXPIRED`, every call to
the accept endpoint with its token returns the same `ValidationError`
response ("Invitation is not pending.") and changes no stored state, so
repeating the call any number of times leaves the database identical. -/
theorem claim8_expired_accept_idempotent (db : Db) (now tok : Nat)
    (payload : AcceptPayload) (newUserId : Nat) (inv : Invitation)
    (hfind : db.invitations.find? (fun i => i.token == tok) = some inv)
    (hexp : inv.status = .expired) :
    accept_invitation db now tok payload newUserId =
      (.failure (.validationError none "Invitation is not pending."), db) ∧
    ∀ n : Nat,
      Nat.iterate (fun d => (accept_invitation d now tok payload newUserId).2) n db = db := by
  have hstep : accept_invitation db now tok payload newUserId =
      (.failure (.validationError none "Invitation is not pending."), db) := by
    unfold accept_invitation
    rw [hfind]
    simp [hexp]
  refine ⟨hstep, ?_⟩
  intro n
  induction n with
  | zero => rfl
  | succ k ih =>
    rw [Function.iterate_succ_apply]
    have : (accept_invitation db now tok payload newUserId).2 = db := by rw [hstep]
    rw [this, ih]

/-- Witness for C8: the stored-expired invitation of the sample database
(token 77). -/
theorem claim8_witness :
    sampleDb.invitations.find? (fun i => i.token == 77) = some invExpired ∧
    invExpired.status = .expired ∧
    accept_invitation sampleDb 5000 77
        { userId := none, firstName := "C", lastName := none } 9 =
      (.failure (.validationError none "Invitation is not pending."), sampleDb) ∧
    Nat.iterate
      (fun d => (accept_invitation d 5000 77
        { userId := none, firstName := "C", lastName := none } 9).2) 3 sampleDb = sampleDb := by
  have h := claim8_expired_accept_idempotent sampleDb 5000 77
    { userId := none, firstName := "C", lastName := none } 9 invExpired (by decide) rfl
  exact ⟨by decide, rfl, h.1, h.2 3⟩

/-! ## Claim C1 — cross-tenant isolation of scoped resources -/

/-- A caller who is neither the owner of an organization nor one of its
active members is not `user_in_organization`. -/
theorem user_in_organization_false (db : Db) (user : User) (O : Organization)
    (hnotOwner : O.ownerId ≠ user.id)
    (hnotMember : ∀ m ∈ db.members,
      ¬(m.organization = O.id ∧ m.user = user.id ∧ m.isActive = true)) :
    user_in_organization db user.id O = false := by
  cases h : user_in_organization db user.id O
  · rfl
  · exfalso
    unfold user_in_organization at h
    rcases Bool.or_eq_true_iff.mp h with howner | hany
    · exact hnotOwner (by simpa using howner)
    · rcases List.any_eq_true.mp hany with ⟨m, hm, hp⟩
      simp only [Bool.and_eq_true, beq_iff_eq] at hp
      exact hnotMember m hm ⟨hp.1.1, hp.1.2, hp.2⟩

/-- The id of an organization of which the caller is neither owner nor
active member never appears in `organization_ids_for_user` (organization
primary keys are assumed unique). -/
theorem org_id_not_for_user (db : Db) (user : User) (O : Organization)
    (huniqOrg : ∀ o ∈ db.organizations, o.id = O.id → o = O)
    (hnotOwner : O.ownerId ≠ user.id)
    (hnotMember : ∀ m ∈ db.members,
      ¬(m.organization = O.id ∧ m.user = user.id ∧ m.isActive = true)) :
    O.id ∉ organization_ids_for_user db user := by
  intro hmem
  unfold organization_ids_for_user organizations_for_user at hmem
  by_cases hauth : user.isAuthenticated
  · simp only [hauth, Bool.not_true, Bool.false_eq_true, if_false] at hmem
    rcases List.mem_map.mp hmem with ⟨o, homem, hid⟩
    rcases List.mem_filter.mp homem with ⟨hodb, hopred⟩
    have hoO : o = O := huniqOrg o hodb hid
    subst hoO
    rcases Bool.or_eq_true_iff.mp hopred with howner | hany
    · exact hnotOwner (by simpa using howner)
    · rcases List.any_eq_true.mp hany with ⟨m, hmdb, hmp⟩
      simp only [Bool.and_eq_true, beq_iff_eq] at hmp
      exact hnotMember m hmdb ⟨hmp.1.1, hmp.1.2, hmp.2⟩
  · simp only [hauth] at hmem
    simp at hmem

/-- Every element of the scoped queryset belongs to one of the caller's
organizations. -/
theorem mem_scopedQueryset_org {α : Type} (orgOf : α → Nat) (resources : List α)
    (db : Db) (user : User) (queryOrg : Option Nat) (r : α)
    (h : r ∈ scopedQueryset orgOf resources db user queryOrg) :
    orgOf r ∈ organization_ids_for_user db user := by
  unfold scopedQueryset at h
  cases queryOrg with
  | none =>
    simp only at h
    rcases List.mem_filter.mp h with ⟨_, hcont⟩
    simpa using hcont
  | some orgId =>
    simp only at h
    rcases List.mem_filter.mp h with ⟨hbase, _⟩
    rcases List.mem_filter.mp hbase with ⟨_, hcont⟩
    simpa using hcont

/-- C1: for a resource `R` of organization `O` and a caller who is neither
`O`'s owner nor one of its active members — with organization and resource
primary keys unique — the scoped list operation never includes `R` in its
result no matter what query parameters are supplied, and retrieve, update
and delete of `R` all fail with `NotFound`. -/
theorem claim1_cross_tenant_isolation {α : Type} (orgOf idOf : α → Nat)
    (resources : List α) (db : Db) (user : User) (R : α) (O : Organization)
    (hR : R ∈ resources) (horg : orgOf R = O.id)
    (huniqOrg : ∀ o ∈ db.organizations, o.id = O.id → o = O)
    (huniqId : ∀ r ∈ resources, idOf r = idOf R → r = R)
    (hnotOwner : O.ownerId ≠ user.id)
    (hnotMember : ∀ m ∈ db.members,
      ¬(m.organization = O.id ∧ m.user = user.id ∧ m.isActive = true)) :
    (∀ queryOrg extra,
      R ∉ (scopedQueryset orgOf resources db user queryOrg).filter extra) ∧
    (∀ req extra res, listOp orgOf resources db user req extra = .ok res → R ∉ res) ∧
    (∀ req extra, retrieveOp orgOf idOf resources db user req extra (idOf R) =
      .error (.notFound "Not found.")) ∧
    (∀ req extra modify, updateOp orgOf idOf resources db user req extra (idOf R) modify =
      .error (.notFound "Not found.")) ∧
    (∀ req extra, destroyOp orgOf idOf resources db user req extra (idOf R) =
      .error (.notFound "Not found.")) := by
  have hids : O.id ∉ organization_ids_for_user db user :=
    org_id_not_for_user db user O huniqOrg hnotOwner hnotMember
  have hnotqs : ∀ queryOrg, R ∉ scopedQueryset orgOf resources db user queryOrg := by
    intro queryOrg hmem
    exact hids (horg ▸ mem_scopedQueryset_org orgOf resources db user queryOrg R hmem)
  have hnotfiltered : ∀ queryOrg extra,
      R ∉ (scopedQueryset orgOf resources db user queryOrg).filter extra := by
    intro queryOrg extra hmem
    exact hnotqs queryOrg (List.mem_filter.mp hmem).1
  have hfindnone : ∀ (req : ScopedRequest) (extra : α → Bool),
      ((scopedQueryset orgOf resources db user req.queryOrg).filter extra).find?
        (fun r => idOf r == idOf R) = none := by
    intro req extra
    rw [List.find?_eq_none]
    intro r hr hbeq
    have hrid : idOf r = idOf R := by simpa using hbeq
    have hrq : r ∈ scopedQueryset orgOf resources db user req.queryOrg :=
      (List.mem_filter.mp hr).1
    have hrres : r ∈ resources := by
      unfold scopedQueryset at hrq
      cases hq : req.queryOrg with
      | none =>
        rw [hq] at hrq
        simp only at hrq
        exact (List.mem_filter.mp hrq).1
      | some orgId =>
        rw [hq] at hrq
        simp only at hrq
        exact (List.mem_filter.mp (List.mem_filter.mp hrq).1).1
    have : r = R := huniqId r hrres hrid
    subst this
    exact hnotfiltered req.queryOrg extra hr
  have hgetobj : ∀ req extra,
      getObject orgOf idOf resources db user req extra (idOf R) =
        .error (.notFound "Not found.") := by
    intro req extra
    unfold getObject
    rw [hfindnone req extra]
  refine ⟨hnotfiltered, ?_, ?_, ?_, ?_⟩
  · intro req extra res hok hmem
    unfold listOp at hok
    cases hres : getRequestOrganization db user req with
    | error e => rw [hres] at hok; cases hok
    | ok o =>
      rw [hres] at hok
      simp only [Except.ok.injEq] at hok
      subst hok
      exact hnotfiltered req.queryOrg extra hmem
  · intro req extra
    unfold retrieveOp
    rw [hgetobj req extra]
  · intro req extra modify
    unfold updateOp
    rw [hgetobj req extra]
  · intro req extra
    unfold destroyOp
    rw [hgetobj req extra]

/-- Witness for C1: `userB` (no memberships) against `contactC` of
organization X in the sample database, with and without the
`organization=10` query parameter. -/
theorem claim1_witness :
    contactC ∈ sampleDb.contacts ∧
    contactC.organization = orgX.id ∧
    orgX.ownerId ≠ userB.id ∧
    (contactC ∉ (scopedQueryset (fun c : Contact => c.organization) sampleDb.contacts
      sampleDb userB (some 10)).filter (fun _ => true)) ∧
    retrieveOp (fun c : Contact => c.organization) (fun c : Contact => c.id)
        sampleDb.contacts sampleDb userB
        { bodyOrg := none, queryOrg := none, kwargsOrg := none }
        (fun _ => true) contactC.id = .error (.notFound "Not found.") ∧
    destroyOp (fun c : Contact => c.organization) (fun c : Contact => c.id)
        sampleDb.contacts sampleDb userB
        { bodyOrg := none, queryOrg := none, kwargsOrg := none }
        (fun _ => true) contactC.id = .error (.notFound "Not found.") := by
  have h := claim1_cross_tenant_isolation (fun c : Contact => c.organization)
    (fun c : Contact => c.id) sampleDb.contacts sampleDb userB contactC orgX
    (by decide) (by decide) (by decide) (by decide) (by decide) (by decide)
  exact ⟨by decide, by decide, by decide, h.1 (some 10) (fun _ => true),
    h.2.2.1 { bodyOrg := none, queryOrg := none, kwargsOrg := none } (fun _ => true),
    h.2.2.2.2 { bodyOrg := none, queryOrg := none, kwargsOrg := none } (fun _ => true)⟩

/-! ## Claim C6 — listing with a foreign organization parameter (corrected)

The claim says the response is an empty result set.  In the code, the DRF
list flow builds the response serializer, whose
`get_serializer_context` calls `_get_request_organization`; for a caller
who is not in the referenced organization that raises `PermissionDenied`,
so the call fails with a 403 error instead of returning an empty page.
(The queryset restriction itself does exclude all of the foreign
organization's data, so no contact data or count can leak.) -/

/-- Counterexample for C6: `userB` (not in organization X) lists contacts
with `organization=10`; the result is a `PermissionDenied` error, not the
empty result set the claim describes. -/
theorem claim6_counterexample :
    listOp (fun c : Contact => c.organization) sampleDb.contacts sampleDb userB
        { bodyOrg := none, queryOrg := some 10, kwargsOrg := none } (fun _ => true) =
      .error (.permissionDenied "You do not have access to this organization.") ∧
    listOp (fun c : Contact => c.organization) sampleDb.contacts sampleDb userB
        { bodyOrg := none, queryOrg := some 10, kwargsOrg := none } (fun _ => true) ≠
      .ok ([] : List Contact) := by
  refine ⟨rfl, ?_⟩
  intro h
  rw [show listOp (fun c : Contact => c.organization) sampleDb.contacts sampleDb userB
        { bodyOrg := none, queryOrg := some 10, kwargsOrg := none } (fun _ => true) =
      .error (.permissionDenied "You do not have access to this organization.")
    from rfl] at h
  simp at h

/-- C6 as amended: a caller with no membership in organization X who
lists a scoped resource with `organization=X` gets `PermissionDenied`
(the tenant resolver rejects the request during response serialization);
the underlying queryset restriction nevertheless excludes every resource
of X, so no data or count of X's resources is ever produced. -/
theorem claim6_foreign_org_list {α : Type} (orgOf : α → Nat) (resources : List α)
    (db : Db) (user : User) (X : Organization)
    (hfind : db.organizations.find? (fun o => o.id == X.id) = some X)
    (huniqOrg : ∀ o ∈ db.organizations, o.id = X.id → o = X)
    (hnotOwner : X.ownerId ≠ user.id)
    (hnotMember : ∀ m ∈ db.members,
      ¬(m.organization = X.id ∧ m.user = user.id ∧ m.isActive = true))
    (req : ScopedRequest) (hreq : requestOrgRef req = some X.id) (extra : α → Bool) :
    listOp orgOf resources db user req extra =
      .error (.permissionDenied "You do not have access to this organization.") ∧
    ∀ r ∈ scopedQueryset orgOf resources db user req.queryOrg, orgOf r ≠ X.id := by
  have hnotin : user_in_organization db user.id X = false :=
    user_in_organization_false db user X hnotOwner hnotMember
  constructor
  · unfold listOp
    simp [getRequestOrganization, hreq, hfind, hnotin]
  · intro r hr hEq
    have hmem := mem_scopedQueryset_org orgOf resources db user req.queryOrg r hr
    rw [hEq] at hmem
    exact org_id_not_for_user db user X huniqOrg hnotOwner hnotMember hmem

/-- Witness for C6 (amended): `userB` listing contacts of organization X. -/
theorem claim6_witness :
    sampleDb.organizations.find? (fun o => o.id == orgX.id) = some orgX ∧
    orgX.ownerId ≠ userB.id ∧
    listOp (fun c : Contact => c.organization) sampleDb.contacts sampleDb userB
        { bodyOrg := none, queryOrg := some orgX.id, kwargsOrg := none } (fun _ => true) =
      .error (.permissionDenied "You do not have access to this organization.") := by
  have h := claim6_foreign_org_list (fun c : Contact => c.organization)
    sampleDb.contacts sampleDb userB orgX (by decide) (by decide) (by decide) (by decide)
    { bodyOrg := none, queryOrg := some orgX.id, kwargsOrg := none } (by decide)
    (fun _ => true)
  exact ⟨by decide, by decide, h.1⟩

/-! ## Claim C2 — creates stamp the resolved organization and creator -/

/-- C2: a create with no resolvable organization fails with
`ValidationError({"organization": "This field is required."})`; a
successful create persists the resolved organization (never a value from
the client payload — the result is independent of the payload's
`organization` value) and stamps `created_by` with the caller. -/
theorem claim2_create_stamps_resolved_org (db : Db) (user : User)
    (req : ScopedRequest) (payload : ContactPayload) (newId : Nat)
    (hauth : user.isAuthenticated = true) :
    (requestOrgRef req = none →
      contactCreateOp db user req payload newId =
        .error (.validationError (some "organization") "This field is required.")) ∧
    (∀ c, contactCreateOp db user req payload newId = .ok c →
      ∃ org, getRequestOrganization db user req = .ok (some org) ∧
        c.organization = org.id ∧ c.createdBy = some user.id) ∧
    (∀ altOrg : Option Nat,
      contactCreateOp db user req { payload with organization := altOrg } newId =
        contactCreateOp db user req payload newId) := by
  refine ⟨?_, ?_, ?_⟩
  · intro hnone
    have hres : getRequestOrganization db user req = .ok none := by
      unfold getRequestOrganization
      rw [hnone]
    unfold contactCreateOp
    rw [hres]
    cases payload.company <;> simp [validate_company, serializer_get_organization]
  · intro c hok
    unfold contactCreateOp at hok
    split at hok
    next e heq => simp at hok
    next ctxOrg hres =>
      split at hok
      next e hval => simp at hok
      next v hval =>
        split at hok
        next => simp at hok
        next theOrg =>
          simp only [Except.ok.injEq] at hok
          refine ⟨theOrg, hres, ?_, ?_⟩
          · rw [← hok]
          · rw [← hok]
            simp [hauth]
  · intro altOrg
    rfl

/-- Witness for C2: `userA` creating a contact in organization X with a
tampering payload whose `organization` field says Y. -/
theorem claim2_witness :
    userA.isAuthenticated = true ∧
    contactCreateOp sampleDb userA
        { bodyOrg := none, queryOrg := some 10, kwargsOrg := none }
        { organization := some 20, company := none } 500 =
      .ok { id := 500, organization := 10, company := none, createdBy := some 1 } ∧
    (∃ org, getRequestOrganization sampleDb userA
        { bodyOrg := none, queryOrg := some 10, kwargsOrg := none } = .ok (some org) ∧
      (500 : Nat) = 500 ∧ org.id = 10) ∧
    contactCreateOp sampleDb userA
        { bodyOrg := none, queryOrg := some 99, kwargsOrg := none }
        { organization := some 20, company := none } 500 ≠
      .ok { id := 500, organization := 99, company := none, createdBy := some 1 } := by
  have h := claim2_create_stamps_resolved_org sampleDb userA
    { bodyOrg := none, queryOrg := some 10, kwargsOrg := none }
    { organization := some 20, company := none } 500 rfl
  have hok : contactCreateOp sampleDb userA
      { bodyOrg := none, queryOrg := some 10, kwargsOrg := none }
      { organization := some 20, company := none } 500 =
      .ok { id := 500, organization := 10, company := none, createdBy := some 1 } := rfl
  rcases h.2.1 _ hok with ⟨org, hres, horgid, _⟩
  refine ⟨rfl, hok, ⟨org, hres, rfl, ?_⟩, ?_⟩
  · simpa using horgid.symm
  · intro hbad
    rw [show contactCreateOp sampleDb userA
        { bodyOrg := none, queryOrg := some 99, kwargsOrg := none }
        { organization := some 20, company := none } 500 =
      .error (.validationError (some "organization") "Organization not found.") from rfl] at hbad
    simp at hbad

/-! ## Claim C4 — contact/company cross-organization check (corrected)

The field validator compares the company against the serializer-context
organization (the resolved request organization, falling back to the
instance's organization).  On a create, and on an update whose request
carries no organization reference, that is exactly the contact's
organization, and a mismatched company fails with
`ValidationError({"company": ...})` as the claim says.  But an update
request that carries a reference to a *different* organization of the
caller narrows `ContactViewSet.get_queryset` to that organization, so the
contact is not found and the operation fails with `NotFound` — not with
the `ValidationError` naming `company` that the claim requires for every
mismatch. -/

/-- Unfolding `validate_company` on a present company value. -/
theorem validate_company_some (ctxOrg : Option Organization) (instOrg : Option Nat)
    (k : Company) :
    validate_company ctxOrg instOrg (some k) =
      (match serializer_get_organization ctxOrg instOrg with
       | some oid =>
         if k.organization != oid then
           .error (.validationError (some "company") "Company must belong to the same organization.")
         else .ok (some k)
       | none => .ok (some k)) := rfl

/-- Members of the update queryset narrowed to a resolved organization
belong to that organization. -/
theorem mem_contactUpdateCandidates_ctx (db : Db) (user : User)
    (req : ScopedRequest) (org : Organization) (c : Contact)
    (h : c ∈ contactUpdateCandidates db user req (some org)) :
    c.organization = org.id := by
  unfold contactUpdateCandidates at h
  simp only at h
  have := (List.mem_filter.mp h).2
  simpa using this

/-- `contactUpdateOp` after the tenant resolver has been evaluated. -/
theorem contactUpdateOp_eq_of_resolved (db : Db) (user : User)
    (req : ScopedRequest) (pk : Nat) (extra : Contact → Bool)
    (newCompany : Option (Option Company)) (ctxOrg : Option Organization)
    (hres : getRequestOrganization db user req = .ok ctxOrg) :
    contactUpdateOp db user req pk extra newCompany =
      (match ((contactUpdateCandidates db user req ctxOrg).filter extra).find?
          (fun c => c.id == pk) with
       | none => .error (.notFound "Not found.")
       | some c =>
         match newCompany with
         | none => .ok c
         | some v =>
           match validate_company ctxOrg (some c.organization) v with
           | .error e => .error e
           | .ok v' => .ok { c with company := v'.map fun comp => comp.id }) := by
  unfold contactUpdateOp
  rw [hres]

/-- Counterexample for C4: `userA` is in both organizations X and Y;
contact 100 belongs to X and company 201 to Y.  An update of contact 100
that sets `company = 201` while the request body says `organization = 20`
(= Y) fails with `NotFound`, not with the `ValidationError` naming
`company` that the claim requires for a cross-organization company
reference. -/
theorem claim4_counterexample :
    companyKY.organization ≠ contactC.organization ∧
    contactUpdateOp sampleDb userA
        { bodyOrg := some 20, queryOrg := none, kwargsOrg := none }
        100 (fun _ => true) (some (some companyKY)) =
      .error (.notFound "Not found.") ∧
    ∀ msg : String, contactUpdateOp sampleDb userA
        { bodyOrg := some 20, queryOrg := none, kwargsOrg := none }
        100 (fun _ => true) (some (some companyKY)) ≠
      .error (.validationError (some "company") msg) := by
  refine ⟨by decide, rfl, ?_⟩
  intro msg h
  rw [show contactUpdateOp sampleDb userA
        { bodyOrg := some 20, queryOrg := none, kwargsOrg := none }
        100 (fun _ => true) (some (some companyKY)) =
      .error (.notFound "Not found.") from rfl] at h
  simp at h

/-- `contactUpdateOp` when the resolver fails. -/
theorem contactUpdateOp_eq_of_resolver_error (db : Db) (user : User)
    (req : ScopedRequest) (pk : Nat) (extra : Contact → Bool)
    (newCompany : Option (Option Company)) (e : ApiError)
    (hres : getRequestOrganization db user req = .error e) :
    contactUpdateOp db user req pk extra newCompany = .error e := by
  unfold contactUpdateOp
  rw [hres]

/-- `contactUpdateOp` on a payload that sets the company, once the
resolver result and the retrieved contact are fixed. -/
theorem contactUpdateOp_set_company (db : Db) (user : User)
    (req : ScopedRequest) (pk : Nat) (extra : Contact → Bool) (k : Company)
    (ctxOrg : Option Organization) (c0 : Contact)
    (hres : getRequestOrganization db user req = .ok ctxOrg)
    (hfind : ((contactUpdateCandidates db user req ctxOrg).filter extra).find?
      (fun x => x.id == pk) = some c0) :
    contactUpdateOp db user req pk extra (some (some k)) =
      (match validate_company ctxOrg (some c0.organization) (some k) with
       | .error e => .error e
       | .ok v' => .ok { c0 with company := v'.map fun comp => comp.id }) := by
  rw [contactUpdateOp_eq_of_resolved db user req pk extra (some (some k)) ctxOrg hres,
    hfind]

/-- C4 as amended: the company reference check compares against the
resolved request organization, which coincides with the contact's
organization on every create and on every update that does not carry a
foreign organization reference.  Concretely: (1) a create whose resolved
organization differs from the referenced company's fails with
`ValidationError` naming `company`; (2) a successful create that set a
company stamped a company of the created contact's own organization;
(3) a successful update that set a company stored a company of the
contact's own organization; (4) for an update whose resolver result and
retrieved contact are fixed, a company of a different organization than
the contact's fails with `ValidationError` naming `company`, and a
company of the same organization is accepted. -/
theorem claim4_company_org_check (db : Db) (user : User) (req : ScopedRequest) :
    (∀ (payload : ContactPayload) (newId : Nat) (org : Organization) (k : Company),
      getRequestOrganization db user req = .ok (some org) →
      payload.company = some k → k.organization ≠ org.id →
      contactCreateOp db user req payload newId =
        .error (.validationError (some "company") "Company must belong to the same organization.")) ∧
    (∀ (payload : ContactPayload) (newId : Nat) (c : Contact) (k : Company),
      contactCreateOp db user req payload newId = .ok c →
      payload.company = some k →
      c.company = some k.id ∧ k.organization = c.organization) ∧
    (∀ (pk : Nat) (extra : Contact → Bool) (k : Company) (c : Contact),
      contactUpdateOp db user req pk extra (some (some k)) = .ok c →
      c.company = some k.id ∧ k.organization = c.organization) ∧
    (∀ (ctxOrg : Option Organization) (pk : Nat) (extra : Contact → Bool)
        (c : Contact) (k : Company),
      getRequestOrganization db user req = .ok ctxOrg →
      ((contactUpdateCandidates db user req ctxOrg).filter extra).find?
        (fun x => x.id == pk) = some c →
      (k.organization ≠ c.organization →
        contactUpdateOp db user req pk extra (some (some k)) =
          .error (.validationError (some "company") "Company must belong to the same organization.")) ∧
      (k.organization = c.organization →
        contactUpdateOp db user req pk extra (some (some k)) =
          .ok { c with company := some k.id })) := by
  have hserial : ∀ (ctxOrg : Option Organization) (c : Contact),
      c ∈ contactUpdateCandidates db user req ctxOrg →
      serializer_get_organization ctxOrg (some c.organization) = some c.organization := by
    intro ctxOrg c hc
    cases ctxOrg with
    | none => rfl
    | some org =>
      have := mem_contactUpdateCandidates_ctx db user req org c hc
      simp [serializer_get_organization, this]
  have hcreate : ∀ (payload : ContactPayload) (newId : Nat) (ctxOrg : Option Organization),
      getRequestOrganization db user req = .ok ctxOrg →
      contactCreateOp db user req payload newId =
        (match validate_company ctxOrg none payload.company with
         | .error e => .error e
         | .ok companyVal =>
           match ctxOrg with
           | none => .error (.validationError (some "organization") "This field is required.")
           | some org =>
             .ok { id := newId, organization := org.id,
                   company := companyVal.map fun x => x.id,
                   createdBy := if user.isAuthenticated then some user.id else none }) := by
    intro payload newId ctxOrg hres
    unfold contactCreateOp
    rw [hres]
  refine ⟨?_, ?_, ?_, ?_⟩
  · intro payload newId org k hres hcomp hne
    rw [hcreate payload newId (some org) hres]
    have hval : validate_company (some org) none payload.company =
        .error (.validationError (some "company") "Company must belong to the same organization.") := by
      rw [hcomp, validate_company_some]
      simp [serializer_get_organization, hne]
    rw [hval]
  · intro payload newId c k hok hcomp
    unfold contactCreateOp at hok
    split at hok
    next e heq => simp at hok
    next ctxOrg hres =>
      split at hok
      next e hval => simp at hok
      next v hval =>
        split at hok
        next => simp at hok
        next theOrg =>
          rw [hcomp, validate_company_some] at hval
          simp only [serializer_get_organization] at hval
          split at hval
          next hne => simp at hval
          next hne2 =>
            have hkorg : k.organization = theOrg.id := by simpa using hne2
            simp only [Except.ok.injEq] at hval
            simp only [Except.ok.injEq] at hok
            rw [← hok, ← hval]
            refine ⟨by simp, by simpa using hkorg⟩
  · intro pk extra k c hok
    cases hres2 : getRequestOrganization db user req with
    | error e =>
      rw [contactUpdateOp_eq_of_resolver_error db user req pk extra _ e hres2] at hok
      simp at hok
    | ok ctxOrg =>
      cases hfind2 : ((contactUpdateCandidates db user req ctxOrg).filter extra).find?
          (fun x => x.id == pk) with
      | none =>
        rw [contactUpdateOp_eq_of_resolved db user req pk extra _ ctxOrg hres2,
          hfind2] at hok
        simp at hok
      | some c0 =>
        rw [contactUpdateOp_set_company db user req pk extra k ctxOrg c0 hres2 hfind2] at hok
        have hser := hserial ctxOrg c0
          ((List.mem_filter.mp (List.mem_of_find?_eq_some hfind2)).1)
        by_cases hne : k.organization = c0.organization
        · have hval : validate_company ctxOrg (some c0.organization) (some k) =
              .ok (some k) := by
            rw [validate_company_some, hser]
            simp [hne]
          rw [hval] at hok
          simp only [Option.map_some, Except.ok.injEq] at hok
          rw [← hok]
          exact ⟨by simp, by simpa using hne⟩
        · have hval : validate_company ctxOrg (some c0.organization) (some k) =
              .error (.validationError (some "company")
                "Company must belong to the same organization.") := by
            rw [validate_company_some, hser]
            simp [hne]
          rw [hval] at hok
          simp at hok
  · intro ctxOrg pk extra c k hres2 hfind2
    have hser := hserial ctxOrg c
      ((List.mem_filter.mp (List.mem_of_find?_eq_some hfind2)).1)
    constructor
    · intro hne
      rw [contactUpdateOp_set_company db user req pk extra k ctxOrg c hres2 hfind2]
      have hval : validate_company ctxOrg (some c.organization) (some k) =
          .error (.validationError (some "company")
            "Company must belong to the same organization.") := by
        rw [validate_company_some, hser]
        simp [hne]
      rw [hval]
    · intro heq
      rw [contactUpdateOp_set_company db user req pk extra k ctxOrg c hres2 hfind2]
      have hval : validate_company ctxOrg (some c.organization) (some k) =
          .ok (some k) := by
        rw [validate_company_some, hser]
        simp [heq]
      rw [hval]
      rfl

/-- Witness for C4 (amended): a create that rejects a cross-organization
company, and an update without an organization reference that accepts a
same-organization company. -/
theorem claim4_witness :
    contactCreateOp sampleDb userA
        { bodyOrg := none, queryOrg := some 10, kwargsOrg := none }
        { organization := none, company := some companyKY } 501 =
      .error (.validationError (some "company") "Company must belong to the same organization.") ∧
    contactUpdateOp sampleDb userA
        { bodyOrg := none, queryOrg := none, kwargsOrg := none }
        100 (fun _ => true) (some (some companyKX)) =
      .ok { contactC with company := some companyKX.id } := by
  have h := claim4_company_org_check sampleDb userA
    { bodyOrg := none, queryOrg := some 10, kwargsOrg := none }
  have h2 := claim4_company_org_check sampleDb userA
    { bodyOrg := none, queryOrg := none, kwargsOrg := none }
  constructor
  · exact h.1 { organization := none, company := some companyKY } 501 orgX companyKY
      rfl rfl (by decide)
  · exact (h2.2.2.2 none 100 (fun _ => true) contactC companyKX rfl (by decide)).2
      (by decide)

/-! ## Claim C5 — invitation status is monotonic out of terminal states -/

/-- The organization returned by `get_object` has the requested primary
key. -/
theorem orgGetObject_id (db : Db) (user : User) (pk : Nat) (org : Organization)
    (h : orgGetObject db user pk = .ok org) : org.id = pk := by
  unfold orgGetObject at h
  split at h
  next heq => simp at h
  next o heq =>
    simp only [Except.ok.injEq] at h
    subst h
    have := List.find?_some heq
    simpa using this

/-- `cancel_invitation` once the organization has been retrieved. -/
theorem cancel_invitation_eq_of_org (db : Db) (user : User) (orgPk invId : Nat)
    (org : Organization) (h1 : orgGetObject db user orgPk = .ok org) :
    cancel_invitation db user orgPk invId =
      (match ensureAdmin db user org with
       | .error e => .error e
       | .ok _ =>
         match db.invitations.find? (fun i => i.id == invId && i.organization == org.id) with
         | none => .error (.notFound "Invitation not found.")
         | some inv =>
           if inv.status != InvitationStatus.pending then
             .error (.validationError none "Only pending invitations can be cancelled.")
           else .ok (saveInvitation db inv.id invitation_cancel)) := by
  unfold cancel_invitation
  rw [h1]

/-- `cancel_invitation` once the admin check has passed. -/
theorem cancel_invitation_eq_of_admin (db : Db) (user : User) (orgPk invId : Nat)
    (org : Organization) (h1 : orgGetObject db user orgPk = .ok org)
    (h2 : ensureAdmin db user org = .ok ()) :
    cancel_invitation db user orgPk invId =
      (match db.invitations.find? (fun i => i.id == invId && i.organization == org.id) with
       | none => .error (.notFound "Invitation not found.")
       | some inv =>
         if inv.status != InvitationStatus.pending then
           .error (.validationError none "Only pending invitations can be cancelled.")
         else .ok (saveInvitation db inv.id invitation_cancel)) := by
  rw [cancel_invitation_eq_of_org db user orgPk invId org h1, h2]

/-- `resend_invitation` once the organization has been retrieved. -/
theorem resend_invitation_eq_of_org (db : Db) (user : User) (orgPk invId : Nat)
    (org : Organization) (h1 : orgGetObject db user orgPk = .ok org) :
    resend_invitation db user orgPk invId =
      (match ensureAdmin db user org with
       | .error e => .error e
       | .ok _ =>
         match db.invitations.find? (fun i => i.id == invId && i.organization == org.id) with
         | none => .error (.notFound "Invitation not found.")
         | some inv =>
           if inv.status != InvitationStatus.pending then
             .error (.validationError none "Only pending invitations can be resent.")
           else .ok db) := by
  unfold resend_invitation
  rw [h1]

/-- `resend_invitation` once the admin check has passed. -/
theorem resend_invitation_eq_of_admin (db : Db) (user : User) (orgPk invId : Nat)
    (org : Organization) (h1 : orgGetObject db user orgPk = .ok org)
    (h2 : ensureAdmin db user org = .ok ()) :
    resend_invitation db user orgPk invId =
      (match db.invitations.find? (fun i => i.id == invId && i.organization == org.id) with
       | none => .error (.notFound "Invitation not found.")
       | some inv =>
         if inv.status != InvitationStatus.pending then
           .error (.validationError none "Only pending invitations can be resent.")
         else .ok db) := by
  rw [resend_invitation_eq_of_org db user orgPk invId org h1, h2]

/-- A pk-targeted row update preserves membership of, and uniqueness of
the id of, a row whose id differs from the target. -/
theorem invStep_preserved (l : List Invitation) (inv : Invitation) (targetId : Nat)
    (g : Invitation → Invitation) (hid : ∀ j, (g j).id = j.id)
    (hneq : inv.id ≠ targetId)
    (hmem : inv ∈ l) (huniq : ∀ j ∈ l, j.id = inv.id → j = inv) :
    inv ∈ l.map (fun i => if i.id == targetId then g i else i) ∧
    (∀ j ∈ l.map (fun i => if i.id == targetId then g i else i),
      j.id = inv.id → j = inv) := by
  have hfinv : (fun i : Invitation => if i.id == targetId then g i else i) inv = inv := by
    simp [hneq]
  have hfid : ∀ j : Invitation,
      ((fun i : Invitation => if i.id == targetId then g i else i) j).id = j.id := by
    intro j
    by_cases h : j.id = targetId <;> simp [h, hid]
  constructor
  · have := List.mem_map_of_mem (fun i : Invitation => if i.id == targetId then g i else i) hmem
    rwa [hfinv] at this
  · intro j hj hjid
    rcases List.mem_map.mp hj with ⟨j0, hj0, rfl⟩
    have hj0id : j0.id = inv.id := by rw [← hfid j0]; exact hjid
    have hj0inv : j0 = inv := huniq j0 hj0 hj0id
    rw [hj0inv]
    simp [hneq]

/-- The invitations table after the accept endpoint: it is either
untouched, or a pk-targeted, id-preserving update of an invitation whose
stored status was `PENDING` (lazy expiry or acceptance). -/
theorem accept_invitation_invitations (db : Db) (now tok : Nat)
    (payload : AcceptPayload) (newUserId : Nat) :
    (accept_invitation db now tok payload newUserId).2.invitations = db.invitations ∨
    ∃ (inv : Invitation) (g : Invitation → Invitation),
      db.invitations.find? (fun i => i.token == tok) = some inv ∧
      inv.status = .pending ∧ (∀ j : Invitation, (g j).id = j.id) ∧
      (accept_invitation db now tok payload newUserId).2.invitations =
        db.invitations.map (fun i => if i.id == inv.id then g i else i) := by
  cases hfind : db.invitations.find? (fun i => i.token == tok) with
  | none =>
    left
    unfold accept_invitation
    rw [hfind]
  | some inv =>
    by_cases hstat : (inv.status != InvitationStatus.pending) = true
    · left
      unfold accept_invitation
      rw [hfind]
      simp [hstat]
    · have hpend : inv.status = .pending := by simpa using hstat
      by_cases hexp : invitation_is_expired now inv = true
      · right
        refine ⟨inv, fun i => { i with status := .expired }, rfl, hpend,
          fun j => rfl, ?_⟩
        unfold accept_invitation
        rw [hfind]
        simp [hstat, hexp, saveInvitation]
      · cases hu : payload.userId with
        | some uid =>
          cases hfu : db.users.find? (fun u => u.id == uid) with
          | none =>
            left
            unfold accept_invitation
            rw [hfind]
            simp [hstat, hexp, hu, hfu]
          | some u =>
            by_cases hmail : (u.email != inv.email) = true
            · left
              unfold accept_invitation
              rw [hfind]
              simp [hstat, hexp, hu, hfu, hmail]
            · right
              refine ⟨inv, invitation_mark_accepted now, rfl, hpend,
                fun j => rfl, ?_⟩
              unfold accept_invitation
              rw [hfind]
              simp [hstat, hexp, hu, hfu, hmail, saveInvitation, apply_ite]
        | none =>
          right
          refine ⟨inv, invitation_mark_accepted now, rfl, hpend,
            fun j => rfl, ?_⟩
          unfold accept_invitation
          rw [hfind]
          simp [hstat, hexp, hu, saveInvitation, apply_ite]

/-- One invitation endpoint invocation can never change a stored
invitation whose status is not `PENDING` (every state change the three
endpoints perform targets an invitation whose stored status is
`PENDING`). -/
theorem terminal_invariant_applyInvOp (db : Db) (inv : Invitation) (op : InvOp)
    (hmem : inv ∈ db.invitations)
    (huniq : ∀ j ∈ db.invitations, j.id = inv.id → j = inv)
    (hterm : inv.status ≠ .pending) :
    inv ∈ (applyInvOp db op).invitations ∧
    (∀ j ∈ (applyInvOp db op).invitations, j.id = inv.id → j = inv) := by
  have hneq_of_pending : ∀ fnd : Invitation, fnd ∈ db.invitations →
      fnd.status = .pending → inv.id ≠ fnd.id := by
    intro fnd hfndmem hfndpend hEq
    have hfi : fnd = inv := huniq fnd hfndmem hEq.symm
    rw [hfi] at hfndpend
    exact hterm hfndpend
  cases op with
  | cancel user orgPk invId =>
    simp only [applyInvOp]
    cases hC : cancel_invitation db user orgPk invId with
    | error e => exact ⟨hmem, huniq⟩
    | ok db' =>
      unfold cancel_invitation at hC
      split at hC
      next e heq => simp at hC
      next org horg =>
        split at hC
        next e hadm => simp at hC
        next hadm =>
          split at hC
          next hfind => simp at hC
          next fnd hfind =>
            split at hC
            next hguard => simp at hC
            next hguard =>
              simp only [Except.ok.injEq] at hC
              subst hC
              have hfndmem : fnd ∈ db.invitations := List.mem_of_find?_eq_some hfind
              have hfndpend : fnd.status = .pending := by simpa using hguard
              exact invStep_preserved db.invitations inv fnd.id invitation_cancel
                (fun j => rfl) (hneq_of_pending fnd hfndmem hfndpend) hmem huniq
  | resend user orgPk invId =>
    simp only [applyInvOp]
    cases hR : resend_invitation db user orgPk invId with
    | error e => exact ⟨hmem, huniq⟩
    | ok db' =>
      unfold resend_invitation at hR
      split at hR
      next e heq => simp at hR
      next org horg =>
        split at hR
        next e hadm => simp at hR
        next hadm =>
          split at hR
          next hfind => simp at hR
          next fnd hfind =>
            split at hR
            next hguard => simp at hR
            next hguard =>
              simp only [Except.ok.injEq] at hR
              subst hR
              exact ⟨hmem, huniq⟩
  | accept now tok payload newUserId =>
    rcases accept_invitation_invitations db now tok payload newUserId with heq |
      ⟨fnd, g, hfind, hfndpend, hgid, heq⟩
    · simp only [applyInvOp]
      rw [heq]
      exact ⟨hmem, huniq⟩
    · simp only [applyInvOp]
      rw [heq]
      have hfndmem : fnd ∈ db.invitations := List.mem_of_find?_eq_some hfind
      exact invStep_preserved db.invitations inv fnd.id g hgid
        (hneq_of_pending fnd hfndmem hfndpend) hmem huniq

/-- Over any sequence of invitation endpoint invocations, a stored
invitation that is not `PENDING` survives unchanged. -/
theorem terminal_invariant_runInvOps (inv : Invitation)
    (hterm : inv.status ≠ .pending) :
    ∀ (ops : List InvOp) (db : Db), inv ∈ db.invitations →
      (∀ j ∈ db.invitations, j.id = inv.id → j = inv) →
      inv ∈ (runInvOps db ops).invitations ∧
      (∀ j ∈ (runInvOps db ops).invitations, j.id = inv.id → j = inv) := by
  intro ops
  induction ops with
  | nil => intro db hmem huniq; exact ⟨hmem, huniq⟩
  | cons op rest ih =>
    intro db hmem huniq
    have h := terminal_invariant_applyInvOp db inv op hmem huniq hterm
    exact ih (applyInvOp db op) h.1 h.2

/-- C5: an invitation in a terminal status (`ACCEPTED`, `EXPIRED` or
`CANCELLED`) is never changed by any sequence of accept / cancel / resend
invocations, and each of the three operations, when it reaches the
invitation, fails with a `ValidationError` (pk and token uniqueness of the
invitations table are hypotheses). -/
theorem claim5_invitation_terminal (db : Db) (inv : Invitation)
    (hmem : inv ∈ db.invitations)
    (huniq : ∀ j ∈ db.invitations, j.id = inv.id → j = inv)
    (hterm : inv.status = .accepted ∨ inv.status = .expired ∨
      inv.status = .cancelled) :
    (∀ ops : List InvOp, inv ∈ (runInvOps db ops).invitations ∧
      ∀ j ∈ (runInvOps db ops).invitations, j.id = inv.id → j = inv) ∧
    (∀ (user : User) (orgPk : Nat) (org : Organization),
      orgGetObject db user orgPk = .ok org →
      ensureAdmin db user org = .ok () →
      inv.organization = org.id →
      cancel_invitation db user orgPk inv.id =
        .error (.validationError none "Only pending invitations can be cancelled.") ∧
      resend_invitation db user orgPk inv.id =
        .error (.validationError none "Only pending invitations can be resent.")) ∧
    (∀ (now : Nat) (payload : AcceptPayload) (newUserId : Nat),
      db.invitations.find? (fun i => i.token == inv.token) = some inv →
      accept_invitation db now inv.token payload newUserId =
        (.failure (.validationError none "Invitation is not pending."), db)) := by
  have hne : inv.status ≠ .pending := by
    rcases hterm with h | h | h <;> simp [h]
  have hbne : (inv.status != InvitationStatus.pending) = true := bne_iff_ne.mpr hne
  refine ⟨?_, ?_, ?_⟩
  · intro ops
    exact terminal_invariant_runInvOps inv hne ops db hmem huniq
  · intro user orgPk org h1 h2 horg
    have hfind : db.invitations.find?
        (fun i => i.id == inv.id && i.organization == org.id) = some inv := by
      apply find_eq_of_unique _ _ inv hmem
      · simp [horg]
      · intro j hj hpj
        have hjid : j.id = inv.id := by
          have := ((Bool.and_eq_true _ _).mp hpj).1
          simpa using this
        exact huniq j hj hjid
    constructor
    · rw [cancel_invitation_eq_of_admin db user orgPk inv.id org h1 h2, hfind]
      simp [hbne]
    · rw [resend_invitation_eq_of_admin db user orgPk inv.id org h1 h2, hfind]
      simp [hbne]
  · intro now payload newUserId hfindtok
    unfold accept_invitation
    rw [hfindtok]
    simp [hbne]

/-- Witness for C5: the stored-expired invitation 300 of the sample
database survives a sequence of cancel, resend and accept attempts, and
each direct attempt fails with a `ValidationError`. -/
theorem claim5_witness :
    invExpired ∈ sampleDb.invitations ∧
    invExpired.status = .expired ∧
    invExpired ∈ (runInvOps sampleDb
      [.cancel userA 10 300, .resend userA 10 300,
       .accept 5000 77 { userId := none, firstName := "C", lastName := none } 9,
       .accept 5000 78 { userId := none, firstName := "D", lastName := none } 9]).invitations ∧
    cancel_invitation sampleDb userA 10 300 =
      .error (.validationError none "Only pending invitations can be cancelled.") ∧
    resend_invitation sampleDb userA 10 300 =
      .error (.validationError none "Only pending invitations can be resent.") ∧
    accept_invitation sampleDb 5000 77
        { userId := none, firstName := "C", lastName := none } 9 =
      (.failure (.validationError none "Invitation is not pending."), sampleDb) := by
  have h := claim5_invitation_terminal sampleDb invExpired (by decide) (by decide)
    (Or.inr (Or.inl rfl))
  have h2 := h.2.1 userA 10 orgX rfl rfl rfl
  exact ⟨by decide, rfl,
    (h.1 [.cancel userA 10 300, .resend userA 10 300,
      .accept 5000 77 { userId := none, firstName := "C", lastName := none } 9,
      .accept 5000 78 { userId := none, firstName := "D", lastName := none } 9]).1,
    h2.1, h2.2,
    h.2.2 5000 { userId := none, firstName := "C", lastName := none } 9 (by decide)⟩

/-! ## Claim C7 — invitation creation invariants -/

/-- `send_invitation` once the organization has been retrieved. -/
theorem send_invitation_eq_of_org (db : Db) (user : User) (orgPk : Nat)
    (email : String) (roleId : Option Nat) (now newId : Nat) (org : Organization)
    (h1 : orgGetObject db user orgPk = .ok org) :
    send_invitation db user orgPk email roleId now newId =
      (match ensureAdmin db user org with
       | .error e => .error e
       | .ok _ =>
         if db.users.any (fun u => u.email == email &&
             db.members.any fun m => m.organization == org.id && m.user == u.id) then
           .error (.validationError none "User is already a member of this organization.")
         else if db.invitations.any (fun i =>
             i.organization == org.id && i.email == email &&
               i.status == InvitationStatus.pending) then
           .error (.validationError none "A pending invitation already exists for this email.")
         else
           .ok ({ id := newId
                  organization := org.id
                  email := email
                  role := roleId
                  status := .pending
                  token := freshInvitationToken db
                  expiresAt := now + sevenDays
                  acceptedAt := none },
               { db with invitations := db.invitations ++
                 [{ id := newId
                    organization := org.id
                    email := email
                    role := roleId
                    status := .pending
                    token := freshInvitationToken db
                    expiresAt := now + sevenDays
                    acceptedAt := none }] })) := by
  unfold send_invitation
  rw [h1]

/-- `send_invitation` once the admin check has passed. -/
theorem send_invitation_eq_of_admin (db : Db) (user : User) (orgPk : Nat)
    (email : String) (roleId : Option Nat) (now newId : Nat) (org : Organization)
    (h1 : orgGetObject db user orgPk = .ok org)
    (h2 : ensureAdmin db user org = .ok ()) :
    send_invitation db user orgPk email roleId now newId =
      (if db.users.any (fun u => u.email == email &&
           db.members.any fun m => m.organization == org.id && m.user == u.id) then
         .error (.validationError none "User is already a member of this organization.")
       else if db.invitations.any (fun i =>
           i.organization == org.id && i.email == email &&
             i.status == InvitationStatus.pending) then
         .error (.validationError none "A pending invitation already exists for this email.")
       else
         .ok ({ id := newId
                organization := org.id
                email := email
                role := roleId
                status := .pending
                token := freshInvitationToken db
                expiresAt := now + sevenDays
                acceptedAt := none },
             { db with invitations := db.invitations ++
               [{ id := newId
                  organization := org.id
                  email := email
                  role := roleId
                  status := .pending
                  token := freshInvitationToken db
                  expiresAt := now + sevenDays
                  acceptedAt := none }] })) := by
  rw [send_invitation_eq_of_org db user orgPk email roleId now newId org h1, h2]

/-- C7: a successful invitation creation stores a `PENDING` invitation
whose token differs from every previously stored token and whose expiry
is the creation time plus 7 days; and while it is stored, a second
invitation to the same email in the same organization fails with a
`ValidationError` (either the duplicate-pending check or the
already-a-member check). -/
theorem claim7_invitation_create (db : Db) (user : User) (orgPk : Nat)
    (email : String) (roleId : Option Nat) (now newId : Nat)
    (inv : Invitation) (db' : Db)
    (hok : send_invitation db user orgPk email roleId now newId = .ok (inv, db')) :
    inv.status = .pending ∧
    (∀ j ∈ db.invitations, j.token ≠ inv.token) ∧
    inv.expiresAt = now + sevenDays ∧
    inv.email = email ∧
    inv.organization = orgPk ∧
    db'.invitations = db.invitations ++ [inv] ∧
    (∀ (user2 : User) (roleId2 : Option Nat) (now2 newId2 : Nat) (org2 : Organization),
      orgGetObject db' user2 orgPk = .ok org2 →
      ensureAdmin db' user2 org2 = .ok () →
      ∃ msg, send_invitation db' user2 orgPk email roleId2 now2 newId2 =
        .error (.validationError none msg)) := by
  unfold send_invitation at hok
  split at hok
  next e heq => simp at hok
  next org horg =>
    split at hok
    next e hadm => simp at hok
    next hadm =>
      split at hok
      next hmem1 => simp at hok
      next hmem1 =>
        split at hok
        next hpend1 => simp at hok
        next hpend1 =>
          simp only [Except.ok.injEq, Prod.mk.injEq] at hok
          obtain ⟨hinv, hdb⟩ := hok
          subst hinv
          subst hdb
          have horgid : org.id = orgPk := orgGetObject_id db user orgPk org horg
          refine ⟨rfl, ?_, rfl, rfl, horgid, rfl, ?_⟩
          · intro j hj
            exact freshInvitationToken_not_used db j hj
          · intro user2 roleId2 now2 newId2 org2 h1' h2'
            rw [send_invitation_eq_of_admin _ user2 orgPk email roleId2 now2 newId2
              org2 h1' h2']
            by_cases hm2 : (db.users.any fun u => u.email == email &&
                db.members.any fun m => m.organization == org2.id && m.user == u.id) = true
            · exact ⟨"User is already a member of this organization.", by simp [hm2]⟩
            · have horg2 : org2.id = orgPk := orgGetObject_id _ user2 orgPk org2 h1'
              refine ⟨"A pending invitation already exists for this email.", ?_⟩
              simp [horg2] at hm2
              simp [List.any_append, horgid, horg2]
              exact hm2

/-- Witness for C7: `userA` invites a new address to organization X; the
stored invitation is `PENDING` with a fresh token and a 7-day expiry, and
a second identical invite is rejected. -/
theorem claim7_witness :
    send_invitation sampleDb userA 10 "e@crm.test" none 100 900 =
      .ok ({ id := 900, organization := 10, email := "e@crm.test", role := none,
             status := .pending, token := 79, expiresAt := 604900, acceptedAt := none },
           { sampleDb with invitations := sampleDb.invitations ++
             [{ id := 900, organization := 10, email := "e@crm.test", role := none,
                status := .pending, token := 79, expiresAt := 604900, acceptedAt := none }] }) ∧
    (∀ j ∈ sampleDb.invitations, j.token ≠ (79 : Nat)) ∧
    (604900 : Nat) = 100 + sevenDays ∧
    (∃ msg, send_invitation
        { sampleDb with invitations := sampleDb.invitations ++
          [{ id := 900, organization := 10, email := "e@crm.test", role := none,
             status := .pending, token := 79, expiresAt := 604900, acceptedAt := none }] }
        userA 10 "e@crm.test" none 200 901 =
      .error (.validationError none msg)) := by
  have hok : send_invitation sampleDb userA 10 "e@crm.test" none 100 900 =
      .ok ({ id := 900, organization := 10, email := "e@crm.test", role := none,
             status := .pending, token := 79, expiresAt := 604900, acceptedAt := none },
           { sampleDb with invitations := sampleDb.invitations ++
             [{ id := 900, organization := 10, email := "e@crm.test", role := none,
                status := .pending, token := 79, expiresAt := 604900, acceptedAt := none }] }) := by
    rfl
  have h := claim7_invitation_create sampleDb userA 10 "e@crm.test" none 100 900 _ _ hok
  exact ⟨hok, h.2.1, rfl, h.2.2.2.2.2.2 userA none 200 901 orgX rfl rfl⟩
